import Mathlib

/-!
Shallow embedding of the node-messente client (`src/lib/client.js`) and
verification of the frozen claims about its specification.

The embedding models the JavaScript source faithfully:
  * JS primitive values appearing in option objects are modelled by `JsVal`
    together with JS truthiness (`jsTruthy`).
  * JSON values handed back by the external `JSON.parse` collaborator are
    modelled by `Json`; the parser itself (part of the JS runtime, not of
    this repository) is a parameter `jp : String -> Except String Json`
    of every definition that uses it, as is the external `csv` library
    (`cp : String -> List (List String)`).
  * Response streaming (`onData`), body assembly (`response.join()`),
    decoding (`onEnd`) and endpoint failover (`onError`) are modelled as
    pure functions over the received chunk list and a transport oracle.
-/

set_option maxRecDepth 4000

namespace Messente

/-- Model of a JavaScript value as it can appear in an options object
passed to the client (strings, numbers, booleans, `Date` objects,
arrays of phone-number strings, `undefined` and `null`). A `Date` is
modelled by its epoch milliseconds together with the value returned by
`getTimezoneOffset()` (minutes). -/
inductive JsVal where
  | str (s : String)
  | num (n : Int)
  | boolean (b : Bool)
  | date (ms : Int) (tzOffsetMin : Int)
  | arr (elems : List String)
  | undef
  | nullv
deriving DecidableEq

/-- JavaScript truthiness of a `JsVal` (`''`, `0`, `false`, `undefined`
and `null` are falsy; every array and every `Date` object is truthy). -/
def jsTruthy : JsVal → Bool
  | .str s => !s.isEmpty
  | .num n => n != 0
  | .boolean b => b
  | .date _ _ => true
  | .arr _ => true
  | .undef => false
  | .nullv => false

/-- Whether a `JsVal` is a `Date` instance (`opts.timeToSend instanceof Date`). -/
def isJsDate : JsVal → Bool
  | .date _ _ => true
  | _ => false

/-- Model of a JSON value as produced by the external `JSON.parse`. -/
inductive Json where
  | str (s : String)
  | num (n : Int)
  | boolean (b : Bool)
  | null
  | arr (elems : List Json)
  | obj (fields : List (String × Json))

/-- A JavaScript `Error` object, identified by its message. -/
structure JsError where
  message : String
deriving DecidableEq

/-- Property access `j[k]` on a JSON value: field lookup on objects,
`undefined` (here `none`) on every other shape. -/
def jsonGet (j : Json) (k : String) : Option Json :=
  match j with
  | .obj fields => (fields.find? (fun p => p.1 == k)).map (fun p => p.2)
  | _ => none

mutual

/-- JavaScript string conversion of a value used as a property key
(`Client._ERRORS[data.value]` coerces `data.value` with `String(...)`). -/
def Json.propKey : Json → String
  | .str s => s
  | .num n => toString n
  | .boolean b => cond b "true" "false"
  | .null => "null"
  | .arr l => Json.propKeyArr l
  | .obj _ => "[object Object]"

/-- JS `Array.prototype.toString`: the elements' string conversions joined
with commas. -/
def Json.propKeyArr : List Json → String
  | [] => ""
  | [j] => Json.propKey j
  | j :: rest => Json.propKey j ++ "," ++ Json.propKeyArr rest

end

/-- JavaScript truthiness of a JSON value. -/
def Json.truthy : Json → Bool
  | .str s => !s.isEmpty
  | .num n => n != 0
  | .boolean b => b
  | .null => false
  | .arr _ => true
  | .obj _ => true

/-- The `{` character, written via its code point. -/
def openBrace : Char := Char.ofNat 123

/-- Substring test modelling the JS `String.prototype.match` calls of the
source, whose pattern strings (`'json'`, `'text/html'`, `'text/csv'`)
contain no regex metacharacters: `jsMatch s pat` holds iff `pat` occurs
in `s`. -/
def listContainsSub (p : List Char) : List Char → Bool
  | [] => p.isEmpty
  | c :: rest => p.isPrefixOf (c :: rest) || listContainsSub p rest

/-- Substring containment on strings (see `listContainsSub`). -/
def jsMatch (s pat : String) : Bool :=
  listContainsSub pat.data s.data

/-- Split a character list at every separator character satisfying `p`,
keeping empty fields, as JS `String.prototype.split` does. The result is
never empty. -/
def splitPred (p : Char → Bool) : List Char → List String
  | [] => [""]
  | c :: rest =>
    let r := splitPred p rest
    if p c then "" :: r
    else
      match r with
      | t :: ts => String.mk (c :: t.data) :: ts
      | [] => [String.mk [c]]

/-- JS `parsed.split(' ')`: split on the single space character,
keeping empty fields. -/
def splitOnSpaceJs (s : String) : List String :=
  splitPred (fun c => c == ' ') s.data

/-- The decoded response handed to an operation callback: a JSON value,
a status-value pair, or CSV rows (`src/lib/client.js`, `onEnd`). -/
inductive Decoded where
  | json (j : Json)
  | statusValue (status value : String)
  | csv (rows : List (List String))

/-- Response body decoding, translated from `onEnd`
(`src/lib/client.js` lines 116-150). `jp` is the external `JSON.parse`
(its `Except.error` carries `err.message`), `cp` the external `csv`
parser. The result is `none` exactly when the source invokes no callback
at all (a content type matching none of the three branches while the
body does not start with a brace). -/
def decodeBody (jp : String → Except String Json) (cp : String → List (List String))
    (ct body : String) : Option (Except JsError Decoded) :=
  if jsMatch ct "json" || body.data.head? == some openBrace then
    match jp body with
    | .ok j => some (.ok (.json j))
    | .error msg => some (.error ⟨"Invalid JSON response: " ++ msg⟩)
  else if jsMatch ct "text/html" then
    let atoms := splitOnSpaceJs body
    if atoms.length < 2 then
      some (.error ⟨"Invalid status-value response: " ++ body⟩)
    else
      some (.ok (.statusValue (atoms.getD 0 "") (atoms.getD 1 "")))
  else if jsMatch ct "text/csv" then
    some (.ok (.csv (cp body)))
  else
    none

/-- Accumulation of response chunks with the 1 MiB guard, translated from
`onData` (`src/lib/client.js` lines 106-114): a chunk is appended when
the previously accumulated length is below `1024 * 1024`; otherwise the
request is aborted with the too-long error (whose message interpolates
the accumulated length). Chunk length is JS `data.length`. -/
def streamChunks : List String → Nat → List String → Except JsError (List String)
  | [], _, acc => .ok acc
  | c :: rest, len, acc =>
    if len < 1048576 then streamChunks rest (len + c.length) (acc ++ [c])
    else .error ⟨"Response body is too long: " ++ toString len ++ " bytes"⟩

/-- Streaming a whole response body from its chunk list. -/
def streamBody (chunks : List String) : Except JsError (List String) :=
  streamChunks chunks 0 []

/-- JS `Array.prototype.join(sep)` on an array of strings: the first
element, then each following element preceded by the separator
(ECMA-262 algorithm). The source calls it as `response.join()`, whose
default separator is `","`. -/
def jsArrayJoin (sep : String) : List String → String
  | [] => ""
  | c :: rest => rest.foldl (fun acc x => acc ++ sep ++ x) c

/-- End-to-end response handling of one HTTP response: stream the chunks
(1 MiB guard), join them with `response.join()`'s default comma
separator, and decode. -/
def handleResponse (jp : String → Except String Json) (cp : String → List (List String))
    (ct : String) (chunks : List String) : Option (Except JsError Decoded) :=
  match streamBody chunks with
  | .error e => some (.error e)
  | .ok resp => decodeBody jp cp ct (jsArrayJoin "," resp)

/-- Outcome of one transport attempt against one endpoint: an `error`
event on the request, or a response with a content type and body chunks. -/
inductive TOutcome where
  | tErr
  | resp (ct : String) (chunks : List String)

/-- The static endpoint list `Client._ENDPOINTS`
(`src/lib/client.js` lines 50-53). -/
def ENDPOINTS : List String :=
  ["api2.messente.com", "api3.messente.com"]

/-- The dispatch loop of `_sendRequest` (`src/lib/client.js` lines
77-172): `request(endpoints.shift())` pops the next endpoint and
dispatches; the request's `error` handler retries against the next
endpoint while any remain and otherwise reports the unreachable error.
The function returns the callback outcome (`none` when the decoder's
silent fall-through case invokes no callback) together with the list
left over after `shift` consumed endpoints — the source aliases the
static `Client._ENDPOINTS` array, so this leftover list is the global
state seen by the next call. -/
def requestLoop (jp : String → Except String Json) (cp : String → List (List String))
    (transport : String → TOutcome) :
    List String → Option (Except JsError Decoded) × List String
  | [] => (some (.error ⟨"Unable to connect API endpoint"⟩), [])
  | e :: rest =>
    match transport e with
    | .tErr => requestLoop jp cp transport rest
    | .resp ct chunks => (handleResponse jp cp ct chunks, rest)

/-- Concrete stand-in for the external `JSON.parse` collaborator, used
only to instantiate closed statements; every general theorem quantifies
over the parser. -/
def jsonParseFail : String → Except String Json :=
  fun _ => .error "unsupported"

/-- Concrete stand-in for the external `csv` collaborator, used only to
instantiate closed statements. -/
def csvParseFail : String → List (List String) :=
  fun _ => []

/-- A Messente client (`function Client (opts)`, `src/lib/client.js`
lines 21-25): credentials plus the stored transport preference
(`opts.hasOwnProperty('secure') ? opts.secure : true`). -/
structure Client where
  username : JsVal
  password : JsVal
  secure : JsVal

/-- Options accepted by `createClient`; `secure = none` models a
configuration object without a `secure` own-property. -/
structure CreateOpts where
  username : JsVal
  password : JsVal
  secure : Option JsVal

/-- `Client.createClient` (`src/lib/client.js` lines 413-419): reject
falsy username or password with the missing-credentials error, otherwise
construct the client (which stores `secure`, defaulting to `true`).
The embedding performs no dispatch: the source's `createClient` contains
no network call. -/
def createClient (opts : CreateOpts) : Except JsError Client :=
  if !jsTruthy opts.username || !jsTruthy opts.password then
    .error ⟨"Missing credentials"⟩
  else
    .ok ⟨opts.username, opts.password, opts.secure.getD (.boolean true)⟩

/-- The `Client._ERRORS` map (`src/lib/client.js` lines 31-42). JS
object keys are strings, so the numeric literals are stored as their
decimal strings. -/
def ERRORS : List (String × String) :=
  [("101", "Access is restricted, wrong credentials."),
   ("102", "Parameters are wrong or missing."),
   ("103", "Invalid IP address."),
   ("104", "Country was not found."),
   ("105", "No such country or area code."),
   ("106", "Destination country is not supported."),
   ("107", "Not enough credit on account."),
   ("111", "Sender parameter from is invalid."),
   ("208", "Account credit balance undetermined, try again."),
   ("209", "Server failure, try again.")]

/-- Lookup `Client._ERRORS[k]` for a property key `k`. -/
def lookupERRORS (k : String) : Option String :=
  (ERRORS.find? (fun p => p.1 == k)).map (fun p => p.2)

/-- `Client._ERRORS[k] || 'Unknown error'`. -/
def errorMessageForKey (k : String) : String :=
  (lookupERRORS k).getD "Unknown error"

/-- `Client._ERRORS[data.value] || 'Unknown error'` where `data.value`
may be any JSON value or absent (`String(undefined) = "undefined"`). -/
def errorMessageFor (v : Option Json) : String :=
  errorMessageForKey (match v with | some j => j.propKey | none => "undefined")

/-- Field access `data.status` on a decoded response (a status-value
pair has a string `status`; CSV rows form an array, whose `status`
property is `undefined`). -/
def dataStatus : Decoded → Option Json
  | .json j => jsonGet j "status"
  | .statusValue s _ => some (.str s)
  | .csv _ => none

/-- Field access `data.value` on a decoded response. -/
def dataValue : Decoded → Option Json
  | .json j => jsonGet j "value"
  | .statusValue _ v => some (.str v)
  | .csv _ => none

/-- JS strict equality `data.status === 'OK'`: true exactly for the
string `"OK"`. -/
def statusIsOK : Option Json → Bool
  | some (.str s) => s == "OK"
  | _ => false

/-- One per-recipient result (`{ error, code, phone }`). -/
structure SendResult where
  error : Option JsError
  code : Option Json
  phone : String

/-- The `onFinish` callback of `sendMessage`'s `send` wrapper
(`src/lib/client.js` lines 238-249): a transport or decoding failure
resolves with the error and a null code; a decoded `status === 'OK'`
resolves with the response value as code; any other status resolves with
the mapped error-table message. -/
def onFinish (outcome : Except JsError Decoded) (phone : String) : SendResult :=
  match outcome with
  | .error err => { error := some err, code := none, phone := phone }
  | .ok data =>
    if statusIsOK (dataStatus data) then
      { error := none, code := dataValue data, phone := phone }
    else
      { error := some ⟨errorMessageFor (dataValue data)⟩, code := none, phone := phone }

/-- Options accepted by `sendMessage`. `toRecipients` renders the
source's `opts.to` field (`to` is reserved in Lean). The source reads
both `opts.charset` and the misspelled `opts.chartset` (line 213), so
the model carries both keys. -/
structure SendOpts where
  text : JsVal
  toRecipients : JsVal
  fromId : JsVal
  timeToSend : JsVal
  charset : JsVal
  chartset : JsVal
  autoconvert : JsVal
  reportURL : JsVal

/-- The validation prologue of `sendMessage` (`src/lib/client.js` lines
197-203): falsy `text` or `to` is rejected with the missing-content
error; a truthy `timeToSend` that is not a `Date` instance is rejected
with the date-required error. -/
def validateSend (opts : SendOpts) : Option JsError :=
  if !jsTruthy opts.text || !jsTruthy opts.toRecipients then
    some ⟨"Missing message content or target phone number(s)"⟩
  else if jsTruthy opts.timeToSend && !isJsDate opts.timeToSend then
    some ⟨"Date object is required"⟩
  else
    none

/-- The shared outbound payload built by `sendMessage`
(`src/lib/client.js` lines 206-230) before the recipient field is set.
`sender` renders the payload's `from` field and `dlrUrl` its `dlr-url`
field (both are reserved or invalid names in Lean). -/
structure Payload where
  username : JsVal
  password : JsVal
  text : JsVal
  autoconvert : Bool
  charset : JsVal
  time_to_send : Option Int
  sender : Option JsVal
  dlrUrl : Option JsVal

/-- `Math.round((opts.timeToSend.getTime() + opts.timeToSend.getTimezoneOffset()) / 1000)`
(line 221): the minutes-valued timezone offset is added to epoch
milliseconds before rounding to seconds, exactly as in the source.
`Math.round x = ⌊x + 1/2⌋`, rendered on integers with a floor division. -/
def jsTimeToSend (ms tzOffsetMin : Int) : Int :=
  Int.fdiv (ms + tzOffsetMin + 500) 1000

/-- The payload construction of `sendMessage` (`src/lib/client.js`
lines 206-230). Note line 213: the guard tests the misspelled
`opts.chartset`, so a supplied `opts.charset` alone never reaches the
payload. A truthy non-`Date` `timeToSend` cannot reach this point (the
validation prologue rejects it), so only the `Date` shape sets
`time_to_send`. -/
def buildMessage (c : Client) (opts : SendOpts) : Payload :=
  { username := c.username
    password := c.password
    text := opts.text
    autoconvert := jsTruthy opts.autoconvert
    charset := if jsTruthy opts.chartset then opts.charset else .str "UTF8"
    time_to_send :=
      match opts.timeToSend with
      | .date ms tz => some (jsTimeToSend ms tz)
      | _ => none
    sender := if jsTruthy opts.fromId then some opts.fromId else none
    dlrUrl := if jsTruthy opts.reportURL then some opts.reportURL else none }

/-- Normalization of `opts.to` (`src/lib/client.js` lines 216-218): a
lone string becomes a one-element array. For any other truthy non-array
value the recipient loop `for (i = 0; i < opts.to.length; i++)` runs
zero times, so such values behave as the empty list. -/
def normalizeTo : JsVal → List String
  | .str s => [s]
  | .arr l => l
  | _ => []

/-- JS truthiness of a per-recipient `code` field. -/
def codeTruthy : Option Json → Bool
  | some j => j.truthy
  | none => false

/-- The per-recipient fan-out (`src/lib/client.js` lines 254-258 with
the `send` wrapper): recipient `i` is dispatched independently and its
settled outcome — abstracted by the oracle `net i`, the callback outcome
of that recipient's `_sendRequest` — is mapped through `onFinish`.
`when.all` preserves the order of the promise array, so the results
list is index-aligned with the recipients. The dispatched request for
recipient `i` carries the shared payload (`buildMessage`) with its `to`
field set to that recipient at dispatch time; the oracle abstracts the
transport and decoding of that request. -/
def fanout (net : Nat → Except JsError Decoded) : List String → Nat → List SendResult
  | [], _ => []
  | phone :: rest, i => onFinish (net i) phone :: fanout net rest (i + 1)

/-- The identifier-extraction loop (`src/lib/client.js` lines 262-269):
`if (!results[i].error && results[i].code) ids.push(results[i].code)`. -/
def extractIds : List SendResult → List Json
  | [] => []
  | r :: rest =>
    if r.error.isNone && codeTruthy r.code then
      r.code.getD .null :: extractIds rest
    else
      extractIds rest

/-- The aggregation performed after validation: the ordered results list
and the derived identifier list handed to the callback
(`callback(null, results, ids)`). -/
def sendBatch (recips : List String) (net : Nat → Except JsError Decoded) :
    List SendResult × List Json :=
  let results := fanout net recips 0
  (results, extractIds results)

/-- `Client.prototype.sendMessage` (`src/lib/client.js` lines 194-278):
validation, recipient normalization, fan-out and aggregation. Every
`send` promise resolves (never rejects), so after validation the
callback is always `callback(null, results, ids)`, modelled by `.ok`.
The client's credentials enter only through the built payload, whose
dispatch outcome the oracle `net` abstracts. -/
def sendMessage (c : Client) (opts : SendOpts) (net : Nat → Except JsError Decoded) :
    Except JsError (List SendResult × List Json) :=
  match validateSend opts with
  | some e => .error e
  | none =>
    let _message := buildMessage c opts
    .ok (sendBatch (normalizeTo opts.toRecipients) net)

/-! Specification-side definitions. Each follows the words of the spec
(or of an amended claim) and is compared against the source-derived
definitions above. -/

/-- Spec side, claim C1: "a derived identifier list containing exactly
the code values of entries with error == null in the same relative
order". -/
def specIds (results : List SendResult) : List Json :=
  (results.filter (fun r => r.error.isNone)).filterMap (fun r => r.code)

/-- Spec side, amended claim C1: the identifier list keeps exactly the
entries whose error is null and whose code is truthy (a falsy code —
empty string, zero — is dropped even when the error is null). -/
def specIdsAmended (results : List SendResult) : List Json :=
  (results.filter (fun r => r.error.isNone && codeTruthy r.code)).filterMap (fun r => r.code)

/-- Spec side, claim C5: the first non-whitespace character of the body. -/
def firstNonWsChar (body : String) : Option Char :=
  (body.data.dropWhile Char.isWhitespace).head?

/-- Spec side, claim C5: the whitespace-separated tokens of the body. -/
def wsTokens (body : String) : List String :=
  (splitPred Char.isWhitespace body.data).filter (fun t => !t.isEmpty)

/-- Spec side, claim C5 as stated: JSON when the content type indicates
JSON or the body's first non-whitespace character is a brace; else HTML
content is a whitespace-separated two-token status-value pair; else CSV. -/
def decodeSpec (jp : String → Except String Json) (cp : String → List (List String))
    (ct body : String) : Option (Except JsError Decoded) :=
  if jsMatch ct "json" || firstNonWsChar body == some openBrace then
    match jp body with
    | .ok j => some (.ok (.json j))
    | .error msg => some (.error ⟨"Invalid JSON response: " ++ msg⟩)
  else if jsMatch ct "text/html" then
    match wsTokens body with
    | s :: v :: _ => some (.ok (.statusValue s v))
    | _ => some (.error ⟨"Invalid status-value response: " ++ body⟩)
  else if jsMatch ct "text/csv" then
    some (.ok (.csv (cp body)))
  else
    none

/-- Spec side, amended claim C5: as `decodeSpec` but with the JSON
branch triggered by the body's first character (not first
non-whitespace character) and the HTML branch splitting on the single
space character (not on general whitespace), keeping empty fields. -/
def decodeSpecAmended (jp : String → Except String Json) (cp : String → List (List String))
    (ct body : String) : Option (Except JsError Decoded) :=
  if jsMatch ct "json" || body.data.head? == some openBrace then
    match jp body with
    | .ok j => some (.ok (.json j))
    | .error msg => some (.error ⟨"Invalid JSON response: " ++ msg⟩)
  else if jsMatch ct "text/html" then
    match splitOnSpaceJs body with
    | s :: v :: _ => some (.ok (.statusValue s v))
    | _ => some (.error ⟨"Invalid status-value response: " ++ body⟩)
  else if jsMatch ct "text/csv" then
    some (.ok (.csv (cp body)))
  else
    none

/-- Spec side, claim C8 as stated: validation fails exactly when `text`
is missing/empty, `to` is missing/empty (an empty recipient collection
counts as empty), or `timeToSend` is supplied but is not a valid
timestamp value. -/
def specSendFails (opts : SendOpts) : Bool :=
  (match opts.text with
   | .undef => true
   | .nullv => true
   | .str s => s.isEmpty
   | _ => false) ||
  (match opts.toRecipients with
   | .undef => true
   | .nullv => true
   | .str s => s.isEmpty
   | .arr l => l.isEmpty
   | _ => false) ||
  (!(opts.timeToSend == .undef) && !isJsDate opts.timeToSend)

/-- Spec side, claim C9: the total length of the first `k` chunks. -/
def sumLenTake (chunks : List String) (k : Nat) : Nat :=
  ((chunks.take k).map String.length).sum

/-- Spec side, claim C10: a single chunk decodes unchanged; `k > 1`
chunks decode from `chunk1 ++ "," ++ chunk2 ++ ... ++ "," ++ chunkk`. -/
def specCommaJoin : List String → String
  | [] => ""
  | [c] => c
  | c :: rest => c ++ "," ++ specCommaJoin rest

/-! Concrete instances used by closed statements. -/

/-- A client with valid credentials. -/
def exClient : Client := ⟨.str "user", .str "secret", .boolean true⟩

/-- A transport oracle whose outcome is never consulted. -/
def unusedNet : Nat → Except JsError Decoded := fun _ => .error ⟨"unused"⟩

/-- A transport succeeding on every endpoint with a status-value body. -/
def okTransport : String → TOutcome := fun _ => .resp "text/html" ["OK 1"]

/-- A per-recipient oracle answering `OK` with an empty value token
(body `"OK "`, whose second space-split field is the empty string). -/
def emptyCodeNet : Nat → Except JsError Decoded := fun _ => .ok (.statusValue "OK" "")

/-- Send options with a supplied `charset` and valid text/recipients. -/
def charsetOpts : SendOpts :=
  { text := .str "Hello!", toRecipients := .arr ["+37255000000"], fromId := .undef,
    timeToSend := .undef, charset := .str "UCS2", chartset := .undef,
    autoconvert := .undef, reportURL := .undef }

/-- Send options with an empty recipients array. -/
def emptyBatchOpts : SendOpts :=
  { text := .str "Hello!", toRecipients := .arr [], fromId := .undef,
    timeToSend := .undef, charset := .undef, chartset := .undef,
    autoconvert := .undef, reportURL := .undef }

/-- Send options with missing text. -/
def noTextOpts : SendOpts :=
  { text := .undef, toRecipients := .arr ["+37255000000"], fromId := .undef,
    timeToSend := .undef, charset := .undef, chartset := .undef,
    autoconvert := .undef, reportURL := .undef }

/-- A single response chunk of 1 MiB + 1 characters. -/
def bigChunk : String := String.mk (List.replicate 1048577 'a')

/-! Helper lemmas. -/

/-- A key-based `find?` over an association list succeeds exactly when
the key occurs among the stored keys. -/
theorem find_isSome_iff_mem (l : List (String × String)) (k : String) :
    (l.find? (fun p => p.1 == k)).isSome ↔ k ∈ l.map Prod.fst := by
  induction l with
  | nil => simp
  | cons a t ih =>
    cases h : (a.1 == k) with
    | true =>
      have hk : k = a.1 := (eq_of_beq h).symm
      simp only [List.find?_cons, h, List.map_cons, List.mem_cons]
      simp [hk]
    | false =>
      have hne : ¬ k = a.1 := fun hkk => by simp [hkk] at h
      simp only [List.find?_cons, h, List.map_cons, List.mem_cons]
      rw [ih]
      simp [hne]

/-- The fan-out produces one result per recipient. -/
theorem fanout_length (net : Nat → Except JsError Decoded) (l : List String) (i : Nat) :
    (fanout net l i).length = l.length := by
  induction l generalizing i with
  | nil => rfl
  | cons a t ih => simp [fanout, ih]

/-- The result at position `k` of a fan-out started at index `i` is the
mapped outcome of recipient `k`. -/
theorem fanout_getElem? (net : Nat → Except JsError Decoded) (l : List String) (i k : Nat) :
    (fanout net l i)[k]? = (l[k]?).map (fun r => onFinish (net (i + k)) r) := by
  induction l generalizing i k with
  | nil => simp [fanout]
  | cons a t ih =>
    cases k with
    | zero => simp [fanout]
    | succ k =>
      have h : i + 1 + k = i + (k + 1) := by omega
      simpa [fanout, h] using ih (i + 1) k

/-- The identifier-extraction loop keeps exactly the codes of entries
with a null error and a truthy code, in order. -/
theorem extractIds_eq (results : List SendResult) :
    extractIds results = specIdsAmended results := by
  induction results with
  | nil => rfl
  | cons r t ih =>
    cases herr : r.error.isNone with
    | false =>
      simp [extractIds, specIdsAmended, List.filter_cons, herr, ih]
    | true =>
      cases hct : codeTruthy r.code with
      | false =>
        simp [extractIds, specIdsAmended, List.filter_cons, herr, hct, ih]
      | true =>
        rcases hcode : r.code with _ | j
        · rw [hcode] at hct
          simp [codeTruthy] at hct
        · rw [hcode] at hct
          simp [extractIds, specIdsAmended, List.filter_cons, herr, hct, hcode,
            List.filterMap_cons, ih]

/-- Taking one more chunk adds its length to the prefix sum. -/
theorem sumLenTake_cons_succ (c : String) (t : List String) (k : Nat) :
    sumLenTake (c :: t) (k + 1) = c.length + sumLenTake t k := by
  simp [sumLenTake, List.take_succ_cons]

/-- When every proper prefix stays below the bound, streaming delivers
every chunk. -/
theorem streamChunks_all_ok (chunks : List String) :
    ∀ (len : Nat) (acc : List String),
      (∀ k, k < chunks.length → len + sumLenTake chunks k < 1048576) →
      streamChunks chunks len acc = .ok (acc ++ chunks) := by
  induction chunks with
  | nil => intro len acc _; simp [streamChunks]
  | cons c t ih =>
    intro len acc h
    have h0 : len < 1048576 := by
      have := h 0 (by simp)
      simpa [sumLenTake] using this
    have hrec : ∀ k, k < t.length → (len + c.length) + sumLenTake t k < 1048576 := by
      intro k hk
      have := h (k + 1) (by simpa using Nat.succ_lt_succ hk)
      rw [sumLenTake_cons_succ] at this
      omega
    have := ih (len + c.length) (acc ++ [c]) hrec
    simp only [streamChunks, h0, if_true]
    simpa using this

/-- When some proper prefix reaches the bound, streaming aborts with an
error. -/
theorem streamChunks_err (chunks : List String) :
    ∀ (len : Nat) (acc : List String) (k : Nat),
      k < chunks.length → 1048576 ≤ len + sumLenTake chunks k →
      ∃ e, streamChunks chunks len acc = .error e := by
  induction chunks with
  | nil => intro len acc k hk _; simp at hk
  | cons c t ih =>
    intro len acc k hk hge
    by_cases h0 : len < 1048576
    · cases k with
      | zero =>
        exfalso
        simp [sumLenTake] at hge
        omega
      | succ k =>
        have hk' : k < t.length := by simpa using Nat.lt_of_succ_lt_succ hk
        have hge' : 1048576 ≤ (len + c.length) + sumLenTake t k := by
          rw [sumLenTake_cons_succ] at hge
          omega
        have := ih (len + c.length) (acc ++ [c]) k hk' hge'
        simpa [streamChunks, h0] using this
    · exact ⟨⟨"Response body is too long: " ++ toString len ++ " bytes"⟩,
        by simp [streamChunks, h0]⟩

/-- A nonempty string has positive length. -/
theorem strLengthPos (s : String) (h : s ≠ "") : 0 < s.length := by
  rcases s with ⟨l⟩
  cases l with
  | nil => exact absurd rfl h
  | cons c t => simp [String.length]

/-- String concatenation is associative. -/
theorem strAppendAssoc (a b c : String) : a ++ b ++ c = a ++ (b ++ c) := by
  rcases a with ⟨la⟩
  rcases b with ⟨lb⟩
  rcases c with ⟨lc⟩
  show String.mk (la ++ lb ++ lc) = String.mk (la ++ (lb ++ lc))
  rw [List.append_assoc]

/-- Prepending an already-joined fragment distributes over the comma
join. -/
theorem specCommaJoin_absorb (a b : String) (xs : List String) :
    specCommaJoin ((a ++ "," ++ b) :: xs) = a ++ "," ++ specCommaJoin (b :: xs) := by
  cases xs with
  | nil => simp [specCommaJoin]
  | cons y ys => simp [specCommaJoin, strAppendAssoc]

/-- The ECMA join fold agrees with the comma-join description. -/
theorem jsJoin_foldl (rest : List String) :
    ∀ c : String, rest.foldl (fun acc x => acc ++ "," ++ x) c = specCommaJoin (c :: rest) := by
  induction rest with
  | nil => intro c; rfl
  | cons x xs ih =>
    intro c
    calc (x :: xs).foldl (fun acc x => acc ++ "," ++ x) c
        = xs.foldl (fun acc x => acc ++ "," ++ x) (c ++ "," ++ x) := by
          simp [List.foldl_cons]
      _ = specCommaJoin ((c ++ "," ++ x) :: xs) := ih (c ++ "," ++ x)
      _ = c ++ "," ++ specCommaJoin (x :: xs) := specCommaJoin_absorb c x xs
      _ = specCommaJoin (c :: x :: xs) := by simp [specCommaJoin]

/-- `response.join()` builds the comma-interleaved concatenation of the
chunks. -/
theorem jsArrayJoin_comma (chunks : List String) :
    jsArrayJoin "," chunks = specCommaJoin chunks := by
  cases chunks with
  | nil => rfl
  | cons c rest => simpa [jsArrayJoin] using jsJoin_foldl rest c

/-! Claim theorems. -/

/-- Claim C2 (code bug): the dispatch loop consumes the static
`Client._ENDPOINTS` list it aliases. After one call that succeeds on the
primary endpoint, the list global to all calls has lost its head, and
after a second such call it is empty — so repeated calls do not observe
the same full ordered endpoint list. -/
theorem endpointListConsumed :
    (requestLoop jsonParseFail csvParseFail okTransport ENDPOINTS).2 = ["api3.messente.com"] ∧
    (requestLoop jsonParseFail csvParseFail okTransport
        (requestLoop jsonParseFail csvParseFail okTransport ENDPOINTS).2).2 = [] ∧
    ["api3.messente.com"] ≠ ENDPOINTS := by
  refine ⟨rfl, rfl, by decide⟩

/-- Claim C4: a transport error on the current endpoint makes the
dispatcher retry the same request against the next endpoint; when every
endpoint fails at the transport level the call reports the
endpoint-unreachable error; any delivered response — including a
well-formed application error such as `ERROR 102` — is decoded and
returned without consulting the remaining endpoints. -/
theorem endpointFailover (jp : String → Except String Json) (cp : String → List (List String)) :
    (∀ (t : String → TOutcome) (e : String) (rest : List String),
      t e = .tErr → requestLoop jp cp t (e :: rest) = requestLoop jp cp t rest) ∧
    (∀ (t : String → TOutcome) (eps : List String),
      (∀ e ∈ eps, t e = .tErr) →
      (requestLoop jp cp t eps).1 = some (.error ⟨"Unable to connect API endpoint"⟩)) ∧
    (∀ (t : String → TOutcome) (e : String) (rest : List String) (ct : String)
        (chunks : List String),
      t e = .resp ct chunks →
      (requestLoop jp cp t (e :: rest)).1 = handleResponse jp cp ct chunks) ∧
    (∀ (t : String → TOutcome) (e : String) (rest : List String),
      t e = .resp "text/html" ["ERROR 102"] →
      (requestLoop jp cp t (e :: rest)).1 = some (.ok (.statusValue "ERROR" "102"))) := by
  refine ⟨?_, ?_, ?_, ?_⟩
  · intro t e rest h
    simp [requestLoop, h]
  · intro t eps h
    induction eps with
    | nil => rfl
    | cons e rest ih =>
      have he := h e (List.mem_cons_self e rest)
      rw [show requestLoop jp cp t (e :: rest) = requestLoop jp cp t rest by
        simp [requestLoop, he]]
      exact ih (fun x hx => h x (List.mem_cons_of_mem e hx))
  · intro t e rest ct chunks h
    simp [requestLoop, h]
  · intro t e rest h
    rw [show (requestLoop jp cp t (e :: rest)).1 =
        handleResponse jp cp "text/html" ["ERROR 102"] by simp [requestLoop, h]]
    rfl

/-- Witness for `endpointFailover` at concrete inputs. -/
theorem endpointFailover_witness :
    (requestLoop jsonParseFail csvParseFail (fun _ => .tErr) ["x", "y"]).1
        = some (.error ⟨"Unable to connect API endpoint"⟩) ∧
    (requestLoop jsonParseFail csvParseFail (fun _ => .resp "text/html" ["ERROR 102"])
        ["x", "y"]).1 = some (.ok (.statusValue "ERROR" "102")) :=
  ⟨(endpointFailover jsonParseFail csvParseFail).2.1 (fun _ => .tErr) ["x", "y"]
      (fun _ _ => rfl),
   (endpointFailover jsonParseFail csvParseFail).2.2.2 (fun _ => .resp "text/html" ["ERROR 102"])
      "x" ["y"] rfl⟩

/-- Claim C6: a transport or decoding failure yields `{error, code: null}`;
a decoded status `OK` yields `{error: null, code: value}`; any other
status maps the response value through `Client._ERRORS`, whose keys are
exactly 101, 102, 103, 104, 105, 106, 107, 111, 208, 209, every other
key falling back to the generic unknown-error message. -/
theorem perRecipientMapping :
    (∀ (e : JsError) (phone : String),
      onFinish (.error e) phone = { error := some e, code := none, phone := phone }) ∧
    (∀ (d : Decoded) (phone : String), statusIsOK (dataStatus d) = true →
      onFinish (.ok d) phone = { error := none, code := dataValue d, phone := phone }) ∧
    (∀ (d : Decoded) (phone : String), statusIsOK (dataStatus d) = false →
      onFinish (.ok d) phone =
        { error := some ⟨errorMessageFor (dataValue d)⟩, code := none, phone := phone }) ∧
    (∀ k : String, (lookupERRORS k).isSome ↔
      k ∈ ["101", "102", "103", "104", "105", "106", "107", "111", "208", "209"]) ∧
    (∀ k : String,
      k ∉ ["101", "102", "103", "104", "105", "106", "107", "111", "208", "209"] →
      errorMessageForKey k = "Unknown error") := by
  refine ⟨fun e phone => rfl, ?_, ?_, ?_, ?_⟩
  · intro d phone h
    simp [onFinish, h]
  · intro d phone h
    simp [onFinish, h]
  · intro k
    have h := find_isSome_iff_mem ERRORS k
    simpa [lookupERRORS, Option.isSome_map', ERRORS] using h
  · intro k hk
    have h := find_isSome_iff_mem ERRORS k
    have hnone : ERRORS.find? (fun p => p.1 == k) = none := by
      rcases hf : ERRORS.find? (fun p => p.1 == k) with _ | v
      · exact hf
      · exfalso
        apply hk
        have hm := h.1 (by simp [hf])
        simpa [ERRORS] using hm
    simp [errorMessageForKey, lookupERRORS, hnone]

/-- Witness for `perRecipientMapping` at concrete inputs. -/
theorem perRecipientMapping_witness :
    onFinish (.ok (.statusValue "OK" "42")) "+372"
        = { error := none, code := some (.str "42"), phone := "+372" } ∧
    onFinish (.ok (.statusValue "ERROR" "107")) "+372"
        = { error := some ⟨"Not enough credit on account."⟩, code := none, phone := "+372" } ∧
    errorMessageForKey "999" = "Unknown error" :=
  ⟨perRecipientMapping.2.1 (.statusValue "OK" "42") "+372" rfl,
   perRecipientMapping.2.2.1 (.statusValue "ERROR" "107") "+372" rfl,
   perRecipientMapping.2.2.2.2 "999" (by decide)⟩

/-- Claim C7: `createClient` reports the missing-credentials error
exactly when username or password is falsy (and performs no dispatch:
the embedded `createClient` contains no network call); otherwise it
reports success once with a client holding the given credentials whose
`secure` flag defaults to `true` when unspecified. The `Except` result
makes success and failure mutually exclusive, each reported once. -/
theorem createClientContract (opts : CreateOpts) :
    (jsTruthy opts.username = false ∨ jsTruthy opts.password = false →
      createClient opts = .error ⟨"Missing credentials"⟩) ∧
    (jsTruthy opts.username = true → jsTruthy opts.password = true →
      createClient opts = .ok ⟨opts.username, opts.password, opts.secure.getD (.boolean true)⟩) := by
  constructor
  · intro h
    rcases h with h | h <;> simp [createClient, h]
  · intro h1 h2
    simp [createClient, h1, h2]

/-- Witness for `createClientContract`: valid credentials without a
`secure` key produce a client with `secure = true`; empty credentials
produce the missing-credentials error. -/
theorem createClientContract_witness :
    createClient ⟨.str "user", .str "secret", none⟩
        = .ok ⟨.str "user", .str "secret", .boolean true⟩ ∧
    createClient ⟨.str "", .str "secret", none⟩ = .error ⟨"Missing credentials"⟩ :=
  ⟨(createClientContract ⟨.str "user", .str "secret", none⟩).2 rfl rfl,
   (createClientContract ⟨.str "", .str "secret", none⟩).1 (Or.inl rfl)⟩

/-- Claim C10: the body string handed to the decoder is the chunk list
joined by `response.join()`, i.e. with the default comma separator: one
chunk is decoded unchanged, `k > 1` chunks are decoded from
`chunk1 ++ "," ++ ... ++ "," ++ chunkk`. -/
theorem bodyCommaJoin :
    (∀ chunks, jsArrayJoin "," chunks = specCommaJoin chunks) ∧
    (∀ (jp : String → Except String Json) (cp : String → List (List String))
        (ct : String) (chunks resp : List String),
      streamBody chunks = .ok resp →
      handleResponse jp cp ct chunks = decodeBody jp cp ct (specCommaJoin resp)) := by
  constructor
  · exact jsArrayJoin_comma
  · intro jp cp ct chunks resp h
    simp [handleResponse, h, jsArrayJoin_comma]

/-- Witness for `bodyCommaJoin`: two chunks `"OK"` and `"42"` are decoded
from the comma-joined body `"OK,42"`. -/
theorem bodyCommaJoin_witness :
    handleResponse jsonParseFail csvParseFail "text/html" ["OK", "42"]
      = decodeBody jsonParseFail csvParseFail "text/html" "OK,42" :=
  bodyCommaJoin.2 jsonParseFail csvParseFail "text/html" ["OK", "42"] ["OK", "42"] rfl

/-- Claim C1 counterexample: a recipient answered `OK` with an empty
value token produces the result `{error: null, code: ""}`; the claim
puts its code into the identifier list, but the extraction loop's
truthiness test (`results[i].code`) drops the empty string, so the
derived list is empty. -/
theorem batchIdsClaimFalse :
    (sendBatch ["+37255000000"] emptyCodeNet).2 = [] ∧
    specIds (sendBatch ["+37255000000"] emptyCodeNet).1 = [.str ""] ∧
    (sendBatch ["+37255000000"] emptyCodeNet).2
      ≠ specIds (sendBatch ["+37255000000"] emptyCodeNet).1 := by
  refine ⟨rfl, rfl, ?_⟩
  intro h
  have h1 : (sendBatch ["+37255000000"] emptyCodeNet).2 = ([] : List Json) := rfl
  have h2 : specIds (sendBatch ["+37255000000"] emptyCodeNet).1 = [.str ""] := rfl
  rw [h1, h2] at h
  simp at h

/-- Claim C1 as amended: the batch always settles into exactly one
result per recipient, in input order, each determined only by its own
recipient and outcome (so no recipient's failure suppresses another's);
the derived identifier list keeps exactly the `code` values of entries
with a null error and a truthy (in particular, non-empty) code, in the
same relative order. -/
theorem batchAggregation (recips : List String) (net : Nat → Except JsError Decoded) :
    (sendBatch recips net).1.length = recips.length ∧
    (∀ i : Nat, (sendBatch recips net).1[i]? = (recips[i]?).map (fun r => onFinish (net i) r)) ∧
    (sendBatch recips net).2 = specIdsAmended (sendBatch recips net).1 := by
  refine ⟨?_, ?_, ?_⟩
  · simpa [sendBatch] using fanout_length net recips 0
  · intro i
    simpa [sendBatch] using fanout_getElem? net recips 0 i
  · simpa [sendBatch] using extractIds_eq (fanout net recips 0)

/-- Claim C3 (code bug): the payload's charset guard tests the
misspelled `opts.chartset`, so a send with a supplied `charset` of
`"UCS2"` dispatches `charset = "UTF8"`, contrary to the claim and to the
source's own option documentation. -/
theorem charsetIgnored :
    charsetOpts.charset = .str "UCS2" ∧
    (buildMessage exClient charsetOpts).charset = .str "UTF8" :=
  ⟨rfl, rfl⟩

/-- Claim C5 counterexample: for content type `text/html` and body
`" {}"` (leading space, then braces) the claim selects the JSON branch —
its first non-whitespace character is a brace — whereas the source tests
only the literal first character `parsed[0]`, falls into the HTML branch
and space-splits the body into the pair `("", "{}")`. -/
theorem decodeClaimFalse :
    decodeBody jsonParseFail csvParseFail "text/html" " \x7b\x7d"
      ≠ decodeSpec jsonParseFail csvParseFail "text/html" " \x7b\x7d" := by
  have h1 : decodeBody jsonParseFail csvParseFail "text/html" " \x7b\x7d"
      = some (.ok (.statusValue "" "\x7b\x7d")) := rfl
  have h2 : decodeSpec jsonParseFail csvParseFail "text/html" " \x7b\x7d"
      = some (.error ⟨"Invalid JSON response: unsupported"⟩) := rfl
  rw [h1, h2]
  intro h
  simp at h

/-- Claim C5 as amended: decoding selects JSON when the content type
indicates JSON or the body's first character is `{` (JSON parse failures
carry the parser's message); else HTML bodies are split on the single
space character into status and value, fewer than two fields being an
invalid-response error; else CSV bodies become ordered rows. -/
theorem decodeRefinement (jp : String → Except String Json) (cp : String → List (List String))
    (ct body : String) :
    decodeBody jp cp ct body = decodeSpecAmended jp cp ct body := by
  unfold decodeBody decodeSpecAmended
  rcases h : splitOnSpaceJs body with _ | ⟨s, rest⟩
  · simp [h]
  · rcases rest with _ | ⟨v, t⟩
    · simp [h]
    · have hlen : ¬ (t.length + 1 + 1 < 2) := by omega
      simp [h, hlen, List.getD]

/-- Claim C8 counterexample: the claim demands immediate failure when
`to` is empty, but an empty recipients array is truthy in JS, so the
source's validation passes and the call settles with an empty result
batch (no validation error is raised). -/
theorem sendValidationClaimFalse :
    specSendFails emptyBatchOpts = true ∧
    validateSend emptyBatchOpts = none ∧
    sendMessage exClient emptyBatchOpts unusedNet = .ok ([], []) :=
  ⟨rfl, rfl, rfl⟩

/-- Claim C8 as amended: `sendMessage` fails immediately — independently
of any dispatch outcome — exactly when `text` is falsy, `to` is falsy
(an empty recipients array is truthy and yields an empty batch), or
`timeToSend` is truthy and not a `Date` (falsy non-`Date` values are
ignored rather than rejected). -/
theorem sendValidationContract (opts : SendOpts) :
    ((validateSend opts).isSome =
      (!jsTruthy opts.text || !jsTruthy opts.toRecipients ||
        (jsTruthy opts.timeToSend && !isJsDate opts.timeToSend))) ∧
    (∀ (c : Client) (net : Nat → Except JsError Decoded) (e : JsError),
      validateSend opts = some e → sendMessage c opts net = .error e) := by
  constructor
  · unfold validateSend
    cases h1 : (!jsTruthy opts.text || !jsTruthy opts.toRecipients) <;>
      cases h2 : (jsTruthy opts.timeToSend && !isJsDate opts.timeToSend) <;>
        simp [h1, h2]
  · intro c net e h
    simp [sendMessage, h]

/-- Witness for `sendValidationContract`: missing text fails with the
missing-content error before any dispatch. -/
theorem sendValidationContract_witness :
    sendMessage exClient noTextOpts unusedNet
      = .error ⟨"Missing message content or target phone number(s)"⟩ :=
  (sendValidationContract noTextOpts).2 exClient unusedNet
    ⟨"Missing message content or target phone number(s)"⟩ rfl

/-- Claim C9 counterexample: a single chunk of 1 MiB + 1 characters is
accepted in full — the guard tests the length accumulated before the
chunk — so an oversized body is buffered and delivered rather than
aborted. -/
theorem sizeGuardClaimFalse :
    1048576 < bigChunk.length ∧ streamBody [bigChunk] = .ok [bigChunk] := by
  constructor
  · show 1048576 < (List.replicate 1048577 'a').length
    rw [List.length_replicate]
    omega
  · simp [streamBody, streamChunks]

/-- Claim C9 as amended: the stream aborts with the too-large error
exactly when some chunk arrives after at least 1 MiB has accumulated
from the chunks before it; when no proper prefix reaches 1 MiB the whole
body is delivered (even if its total exceeds 1 MiB); in particular a
body of at most 1 MiB arriving in nonempty chunks is never rejected. -/
theorem responseSizeGuard (chunks : List String) :
    ((∃ e, streamBody chunks = .error e) ↔
      ∃ k, k < chunks.length ∧ 1048576 ≤ sumLenTake chunks k) ∧
    ((∀ k, k < chunks.length → sumLenTake chunks k < 1048576) →
      streamBody chunks = .ok chunks) ∧
    ((∀ c ∈ chunks, c ≠ "") → (chunks.map String.length).sum ≤ 1048576 →
      streamBody chunks = .ok chunks) := by
  have hok : (∀ k, k < chunks.length → sumLenTake chunks k < 1048576) →
      streamBody chunks = .ok chunks := by
    intro h
    have := streamChunks_all_ok chunks 0 [] (by simpa using h)
    simpa [streamBody] using this
  refine ⟨⟨?_, ?_⟩, hok, ?_⟩
  · intro he
    by_contra hno
    push_neg at hno
    have hsmall : ∀ k, k < chunks.length → sumLenTake chunks k < 1048576 := by
      intro k hk
      have := hno k hk
      omega
    rcases he with ⟨e, he⟩
    rw [hok hsmall] at he
    exact Except.noConfusion he
  · rintro ⟨k, hk, hge⟩
    exact streamChunks_err chunks 0 [] k hk (by simpa using hge)
  · intro hne htotal
    apply hok
    intro k hk
    have hsplit : sumLenTake chunks k + ((chunks.drop k).map String.length).sum
        = (chunks.map String.length).sum := by
      rw [sumLenTake]
      rw [← List.sum_append, ← List.map_append, List.take_append_drop]
    have hdrop : 1 ≤ ((chunks.drop k).map String.length).sum := by
      rcases hd : chunks.drop k with _ | ⟨d, ds⟩
      · exfalso
        have := List.drop_eq_nil_iff.mp hd
        omega
      · have hdm : d ∈ chunks := by
          apply List.drop_subset k
          rw [hd]
          exact List.mem_cons_self d ds
        have := strLengthPos d (hne d hdm)
        simp [List.sum_cons]
        omega
    omega

/-- Witness for `responseSizeGuard`: a two-character body in one chunk is
delivered whole. -/
theorem responseSizeGuard_witness :
    streamBody ["ab"] = .ok ["ab"] :=
  (responseSizeGuard ["ab"]).2.1 (by decide)

end Messente
